import Mathlib

set_option maxRecDepth 8192

/-!
Shallow embedding of `src/memory.js`: a sparse store of nodes addressed by
integer 3D coordinates, each node holding a dynamically growing 2D grid.

JS arrays of numbers are modelled as `List (Option Int)`; `none` models the
JS `undefined` that appears in array holes created by out-of-range element
assignment.  JS errors are modelled by `Err`; operations that can both
mutate and throw return the post-state together with the raised error
(the source mutates node objects in place, so a throw can leave a partial
mutation behind).
-/

/-- JS error kinds observable from `memory.js`.  `invalidAddress` is the
thrown `Error("Invalid address")` (the spec's NotFound); `indexOutOfBounds`
is `Error("Index out of bounds")`; `invalidArgument` belongs to the spec's
error taxonomy but is never raised by the source; `typeError` and
`rangeError` are the native JS errors reachable on negative indices. -/
inductive Err where
  | invalidAddress
  | indexOutOfBounds
  | invalidArgument
  | typeError
  | rangeError
deriving DecidableEq, Repr

/-- A cell of a node's grid: `some n` a number, `none` a JS array hole. -/
abbrev Cell := Option Int

abbrev Grid := List (List Cell)

/-- A 3D coordinate `(xx, yy, zz)`. -/
structure Addr where
  xx : Int
  yy : Int
  zz : Int
deriving DecidableEq, Repr

/-- A node: its coordinates and its 2D `value` array. -/
structure Node where
  addr : Addr
  value : Grid
deriving DecidableEq, Repr

/-- The `Memory` class state: `nodes` in insertion order, plus the
`usedAddresses` string set (a JS `Set` iterates in insertion order and
ignores re-insertion, so it is modelled as a duplicate-free list). -/
structure Memory where
  nodes : List Node
  usedAddresses : List String
deriving DecidableEq, Repr

/-- `new Memory()`. -/
def emptyMemory : Memory := ⟨[], []⟩

/-- `generateAddress(xx, yy, zz)`: the string `"xx,yy,zz"`. -/
def generateAddress (a : Addr) : String :=
  toString a.xx ++ "," ++ toString a.yy ++ "," ++ toString a.zz

/-- JS `Set.add`: append if absent, otherwise leave the set unchanged. -/
def addAddress (l : List String) (s : String) : List String :=
  if s ∈ l then l else l ++ [s]

/-- `Array.prototype.find`: the first node with the given coordinates. -/
def findNodeIn : List Node → Addr → Option Node
  | [], _ => none
  | n :: rest, a => if n.addr = a then some n else findNodeIn rest a

/-- `findNode(xx, yy, zz)`. -/
def Memory.findNode (m : Memory) (a : Addr) : Option Node :=
  findNodeIn m.nodes a

/-- `Array.from({length: rows}, () => Array(cols).fill(0))` for arguments
that do not throw; `Array.from` clamps a negative length to 0, matching
`Int.toNat`. -/
def zeroGrid (rows cols : Int) : Grid :=
  List.replicate rows.toNat (List.replicate cols.toNat (some 0))

/-- `createNodeIfNeeded(xx, yy, zz, rows, cols)`.  Building the fresh grid
throws a native `RangeError` when at least one row must be built with a
negative column count (`Array(cols)` rejects negative lengths); in that
case nothing is pushed and no address is registered. -/
def Memory.createNodeIfNeeded (m : Memory) (a : Addr) (rows cols : Int) :
    Except Err (Memory × Node) :=
  match m.findNode a with
  | some node => .ok (m, node)
  | none =>
    if 1 ≤ rows ∧ cols < 0 then
      .error .rangeError
    else
      let node : Node := ⟨a, zeroGrid rows cols⟩
      .ok (⟨m.nodes ++ [node], addAddress m.usedAddresses (generateAddress a)⟩, node)

/-- `getAllData(xx, yy, zz)`. -/
def Memory.getAllData (m : Memory) (a : Addr) : Except Err Grid :=
  match m.findNode a with
  | none => .error .invalidAddress
  | some node => .ok node.value

/-- `get(xx, yy, zz, rowIndex, colIndex)`.  The bounds check uses the
addressed row's own length, exactly as the source does. -/
def Memory.get (m : Memory) (a : Addr) (rowIndex colIndex : Int) : Except Err Cell :=
  match m.findNode a with
  | none => .error .invalidAddress
  | some node =>
    if 0 ≤ rowIndex ∧ rowIndex < (node.value.length : Int) ∧ 0 ≤ colIndex ∧
        colIndex < ((node.value.getD rowIndex.toNat []).length : Int) then
      .ok ((node.value.getD rowIndex.toNat []).getD colIndex.toNat none)
    else
      .error .indexOutOfBounds

/-- `getDimensions(xx, yy, zz)`. -/
def Memory.getDimensions (m : Memory) (a : Addr) : Int × Int :=
  match m.findNode a with
  | none => (0, 0)
  | some node =>
    ((node.value.length : Int),
     if 0 < node.value.length then ((node.value.headD []).length : Int) else 0)

/-- Assignment to `node.value` for the node found at `a`: the source mutates
the node object returned by `find`, so only the first address match is
updated. -/
def updateFirst : List Node → Addr → Grid → List Node
  | [], _, _ => []
  | n :: rest, a, g =>
    if n.addr = a then { n with value := g } :: rest
    else n :: updateFirst rest a g

def Memory.setNodeValue (m : Memory) (a : Addr) (g : Grid) : Memory :=
  ⟨updateFirst m.nodes a g, m.usedAddresses⟩

/-- `setMatrix(xx, yy, zz, matrix)`: create the node if needed (sized from
the matrix), then overwrite its whole `value`.  The error branch is
unreachable because `rows` and `cols` are array lengths, hence
non-negative. -/
def Memory.setMatrix (m : Memory) (a : Addr) (matrix : Grid) : Memory × Option Err :=
  let rows : Int := matrix.length
  let cols : Int := if 0 < matrix.length then ((matrix.headD []).length : Int) else 0
  match m.createNodeIfNeeded a rows cols with
  | .error e => (m, some e)
  | .ok (m1, _node) => (m1.setNodeValue a matrix, none)

/-- The row loop of `expandMatrixIfNeeded`: append `max 0 (rowIndex + 1 -
length)` zero rows, each of the pre-expansion width `currentCols`. -/
def rowExpand (value : Grid) (rowIndex : Int) : Grid :=
  let currentCols : Int := if 0 < value.length then ((value.headD []).length : Int) else 0
  value ++ List.replicate (rowIndex + 1 - (value.length : Int)).toNat
      (List.replicate currentCols.toNat (some 0))

/-- The column loop of `expandMatrixIfNeeded`: when `updatedCols`, read from
row 0, is at most `colIndex`, pad every row whose length is at most
`colIndex` with zeros up to length `colIndex + 1`. -/
def colExpand (g1 : Grid) (colIndex : Int) : Grid :=
  if ((g1.headD []).length : Int) ≤ colIndex then
    g1.map (fun r => r ++ List.replicate (colIndex + 1 - (r.length : Int)).toNat (some 0))
  else
    g1

/-- `expandMatrixIfNeeded`, as a function of the node's grid.  Reading
`node.value[0].length` on a grid still empty after row expansion (possible
only when `rowIndex < 0`) throws a native `TypeError`. -/
def expandMatrixIfNeeded (value : Grid) (rowIndex colIndex : Int) : Except Err Grid :=
  match rowExpand value rowIndex with
  | [] => .error .typeError
  | row0 :: rest => .ok (colExpand (row0 :: rest) colIndex)

/-- JS element assignment `r[c] = v`: in range it replaces the element; out
of range it extends the array to length `c + 1`, filling the gap with
holes. -/
def writeCell (r : List Cell) (c : Nat) (v : Int) : List Cell :=
  if c < r.length then r.set c (some v)
  else r ++ List.replicate (c - r.length) none ++ [some v]

/-- Apply `f` to the row at index `i` (always in range where `set` uses it). -/
def modifyAt : Grid → Nat → (List Cell → List Cell) → Grid
  | [], _, _ => []
  | r :: rest, 0, f => f r :: rest
  | r :: rest, i + 1, f => r :: modifyAt rest i f

/-- `set(xx, yy, zz, rowIndex, colIndex, newValue)`.  On a negative
`rowIndex` the final cell assignment (or, for a grid still empty after row
expansion, the expansion itself) throws a native `TypeError`, after any node
creation and grid expansion already performed; on a negative `colIndex` with
`0 ≤ rowIndex` the assignment writes a non-index property of the row array,
leaving every grid element unchanged. -/
def Memory.set (m : Memory) (a : Addr) (rowIndex colIndex : Int) (newValue : Int) :
    Memory × Option Err :=
  let step1 : Except Err (Memory × Node) :=
    match m.findNode a with
    | some node => .ok (m, node)
    | none => m.createNodeIfNeeded a (rowIndex + 1) (colIndex + 1)
  match step1 with
  | .error e => (m, some e)
  | .ok (m1, node) =>
    match expandMatrixIfNeeded node.value rowIndex colIndex with
    | .error e => (m1, some e)
    | .ok g2 =>
      if rowIndex < 0 then
        (m1.setNodeValue a g2, some .typeError)
      else if colIndex < 0 then
        (m1.setNodeValue a g2, none)
      else
        (m1.setNodeValue a
          (modifyAt g2 rowIndex.toNat (fun r => writeCell r colIndex.toNat newValue)), none)

/-- `update()`: the placeholder sweep that writes the constant 1 into every
cell of every node, in node order, row-major. -/
def Memory.update (m : Memory) : Memory :=
  ⟨m.nodes.map (fun node =>
      { node with value := node.value.map (fun r => r.map (fun _ => some 1)) }),
   m.usedAddresses⟩

/-- The grid currently stored at `a` (the empty grid when no node exists);
a convenience accessor for stating theorems. -/
def gridAt (m : Memory) (a : Addr) : Grid :=
  match m.findNode a with
  | some node => node.value
  | none => []

/-- The cell at row `i`, column `j` of a grid (a hole out of range). -/
def cellAt (g : Grid) (i j : Nat) : Cell :=
  (g.getD i []).getD j none

/-- Strict rectangularity: every row has the first row's length. -/
def Rectangular (g : Grid) : Prop :=
  ∀ r ∈ g, r.length = (g.headD []).length

instance (g : Grid) : Decidable (Rectangular g) :=
  inferInstanceAs (Decidable (∀ r ∈ g, r.length = (g.headD []).length))

/-- One recorded `set` call (row, column, value). -/
structure SetCall where
  row : Int
  col : Int
  val : Int
deriving DecidableEq, Repr

/-- Run a sequence of `set` calls against one address. -/
def applySets (m : Memory) (a : Addr) : List SetCall → Memory
  | [] => m
  | call :: rest => applySets (m.set a call.row call.col call.val).1 a rest

/-- The grid a `set` call starts from: the found node's grid, or the
freshly created `(row+1) × (col+1)` zero grid when the address is unused. -/
def baseGrid (m : Memory) (a : Addr) (rowIndex colIndex : Int) : Grid :=
  match m.findNode a with
  | some node => node.value
  | none => zeroGrid (rowIndex + 1) (colIndex + 1)

/-- The grid produced by a successful `set` with non-negative indices:
row expansion, column expansion, then the cell assignment. -/
def setGrid (g0 : Grid) (rowIndex colIndex : Int) (v : Int) : Grid :=
  modifyAt (colExpand (rowExpand g0 rowIndex) colIndex) rowIndex.toNat
    (fun r => writeCell r colIndex.toNat v)

def defaultNode : Node := ⟨⟨0, 0, 0⟩, []⟩

/-- The public operations of the store, reified so statements can quantify
over "every store operation". -/
inductive Op where
  | opSet (a : Addr) (row col v : Int)
  | opSetMatrix (a : Addr) (matrix : Grid)
  | opGet (a : Addr) (row col : Int)
  | opGetAllData (a : Addr)
  | opGetDimensions (a : Addr)
  | opUpdate
  | opCreateOrGet (a : Addr) (rows cols : Int)

/-- Run one operation: the store it leaves behind, and the error it raises,
if any.  Read operations perform no mutation in the source, so they leave
the input store. -/
def runOp (op : Op) (m : Memory) : Memory × Option Err :=
  match op with
  | .opSet a r c v => m.set a r c v
  | .opSetMatrix a mat => m.setMatrix a mat
  | .opGet a r c =>
    match m.get a r c with
    | .ok _ => (m, none)
    | .error e => (m, some e)
  | .opGetAllData a =>
    match m.getAllData a with
    | .ok _ => (m, none)
    | .error e => (m, some e)
  | .opGetDimensions _ => (m, none)
  | .opUpdate => (m.update, none)
  | .opCreateOrGet a rows cols =>
    match m.createNodeIfNeeded a rows cols with
    | .ok (m1, _) => (m1, none)
    | .error e => (m, some e)

/-! ### Generic list lemmas -/

theorem headD_eq_getD {α : Type} (l : List α) (d : α) : l.headD d = l.getD 0 d := by
  cases l <;> rfl

theorem getD_replicate {α : Type} (x d : α) {k n : Nat} (h : n < k) :
    (List.replicate k x).getD n d = x := by
  rw [List.getD_eq_getElem _ _ (by simpa using h), List.getElem_replicate]

theorem getD_map_lt {α β : Type} (f : α → β) (l : List α) (d : β) (d0 : α) {n : Nat}
    (h : n < l.length) : (l.map f).getD n d = f (l.getD n d0) := by
  rw [List.getD_eq_getElem _ _ (by simpa using h), List.getElem_map,
    List.getD_eq_getElem _ _ h]

theorem getD_set_ne {α : Type} (l : List α) (d x : α) {i j : Nat} (h : i ≠ j) :
    (l.set i x).getD j d = l.getD j d := by
  rcases Nat.lt_or_ge j l.length with hj | hj
  · rw [List.getD_eq_getElem _ _ (by simpa using hj),
      List.getElem_set_ne h, List.getD_eq_getElem _ _ hj]
  · rw [List.getD_eq_default _ _ (by simpa using hj), List.getD_eq_default _ _ hj]

theorem getD_set_self {α : Type} (l : List α) (d x : α) {i : Nat} (h : i < l.length) :
    (l.set i x).getD i d = x := by
  rw [List.getD_eq_getElem _ _ (by simpa using h), List.getElem_set_self]

theorem set_eq_self {α : Type} (l : List α) (d x : α) {i : Nat} (hlen : i < l.length)
    (hval : l.getD i d = x) : l.set i x = l := by
  induction l generalizing i with
  | nil => simp at hlen
  | cons a rest ih =>
    cases i with
    | zero => simp_all
    | succ i1 =>
      simp only [List.set_cons_succ, List.cons.injEq, true_and]
      exact ih (by simpa using hlen) (by simpa using hval)

theorem modifyAt_length (g : Grid) (i : Nat) (f : List Cell → List Cell) :
    (modifyAt g i f).length = g.length := by
  induction g generalizing i with
  | nil => rfl
  | cons r rest ih =>
    cases i with
    | zero => rfl
    | succ i1 => simpa [modifyAt] using ih i1

theorem modifyAt_getD_self (g : Grid) {i : Nat} (f : List Cell → List Cell)
    (h : i < g.length) : (modifyAt g i f).getD i [] = f (g.getD i []) := by
  induction g generalizing i with
  | nil => simp at h
  | cons r rest ih =>
    cases i with
    | zero => rfl
    | succ i1 => simpa [modifyAt] using ih (by simpa using h)

theorem modifyAt_getD_ne (g : Grid) {i j : Nat} (f : List Cell → List Cell)
    (h : i ≠ j) : (modifyAt g i f).getD j [] = g.getD j [] := by
  induction g generalizing i j with
  | nil => rfl
  | cons r rest ih =>
    cases i with
    | zero =>
      cases j with
      | zero => exact absurd rfl h
      | succ j1 => rfl
    | succ i1 =>
      cases j with
      | zero => rfl
      | succ j1 => simpa [modifyAt] using ih (fun e => h (by omega))

theorem modifyAt_eq_self (g : Grid) {i : Nat} (f : List Cell → List Cell)
    (h : i < g.length) (hf : f (g.getD i []) = g.getD i []) : modifyAt g i f = g := by
  induction g generalizing i with
  | nil => simp at h
  | cons r rest ih =>
    cases i with
    | zero => simpa [modifyAt] using hf
    | succ i1 =>
      simp only [modifyAt, List.cons.injEq, true_and]
      exact ih (by simpa using h) (by simpa using hf)

theorem writeCell_length (r : List Cell) (c : Nat) (v : Int) :
    (writeCell r c v).length = max r.length (c + 1) := by
  unfold writeCell
  split
  · rw [List.length_set]; omega
  · simp only [List.length_append, List.length_replicate, List.length_cons,
      List.length_nil]
    omega

theorem writeCell_getD_self (r : List Cell) (c : Nat) (v : Int) :
    (writeCell r c v).getD c none = some v := by
  unfold writeCell
  split
  · exact getD_set_self _ _ _ (by assumption)
  · rename_i hc
    rw [List.getD_append_right _ _ _ _ (by simp; omega)]
    have hlen : c - (r ++ List.replicate (c - r.length) none).length = 0 := by
      simp only [List.length_append, List.length_replicate]; omega
    rw [hlen]
    rfl

theorem writeCell_getD_ne (r : List Cell) (c : Nat) (v : Int) {j : Nat}
    (hj : j < r.length) (hne : j ≠ c) : (writeCell r c v).getD j none = r.getD j none := by
  unfold writeCell
  split
  · exact getD_set_ne _ _ _ (fun e => hne e.symm)
  · rw [List.append_assoc, List.getD_append _ _ _ _ hj]

/-! ### Expansion lemmas -/

theorem rowExpand_length (g : Grid) (row : Int) :
    (rowExpand g row).length = g.length + (row + 1 - (g.length : Int)).toNat := by
  simp [rowExpand]

theorem rowExpand_getD (g : Grid) (row : Int) {i : Nat} (h : i < g.length) :
    (rowExpand g row).getD i [] = g.getD i [] := by
  unfold rowExpand
  exact List.getD_append _ _ _ _ h

theorem rowExpand_ne_nil (g : Grid) {row : Int} (h : 0 ≤ row) :
    rowExpand g row ≠ [] := by
  have hlen := rowExpand_length g row
  intro hnil
  rw [hnil] at hlen
  simp only [List.length_nil] at hlen
  omega

theorem rowExpand_of_lt (g : Grid) {row : Int} (h : row < (g.length : Int)) :
    rowExpand g row = g := by
  unfold rowExpand
  have : (row + 1 - (g.length : Int)).toNat = 0 := by omega
  simp [this]

theorem colExpand_length (g1 : Grid) (col : Int) :
    (colExpand g1 col).length = g1.length := by
  unfold colExpand
  split <;> simp

theorem colExpand_getD (g1 : Grid) (col : Int) {i : Nat} (h : i < g1.length) :
    (colExpand g1 col).getD i [] =
      if ((g1.headD []).length : Int) ≤ col then
        g1.getD i [] ++
          List.replicate (col + 1 - ((g1.getD i []).length : Int)).toNat (some 0)
      else g1.getD i [] := by
  unfold colExpand
  split
  · exact getD_map_lt _ _ _ [] h
  · rfl

theorem colExpand_rowLen_mono (g1 : Grid) (col : Int) {i : Nat} (h : i < g1.length) :
    (g1.getD i []).length ≤ ((colExpand g1 col).getD i []).length := by
  rw [colExpand_getD _ _ h]
  split <;> simp

theorem colExpand_cell (g1 : Grid) (col : Int) {i j : Nat} (hi : i < g1.length)
    (hj : j < (g1.getD i []).length) :
    cellAt (colExpand g1 col) i j = cellAt g1 i j := by
  unfold cellAt
  rw [colExpand_getD _ _ hi]
  split
  · exact List.getD_append _ _ _ _ hj
  · rfl

theorem colExpand_of_lt (g1 : Grid) {col : Int} (h : col < ((g1.headD []).length : Int)) :
    colExpand g1 col = g1 := by
  unfold colExpand
  rw [if_neg (by omega)]

theorem expand_eq_ok (g : Grid) {row : Int} (col : Int) (h : 0 ≤ row) :
    expandMatrixIfNeeded g row col = .ok (colExpand (rowExpand g row) col) := by
  unfold expandMatrixIfNeeded
  have hne := rowExpand_ne_nil g h
  cases hn : rowExpand g row with
  | nil => exact absurd hn hne
  | cons row0 rest => rfl

theorem expand_ok_eq (g : Grid) (row col : Int) {g2 : Grid}
    (h : expandMatrixIfNeeded g row col = .ok g2) :
    g2 = colExpand (rowExpand g row) col := by
  unfold expandMatrixIfNeeded at h
  cases hn : rowExpand g row with
  | nil => rw [hn] at h; exact absurd h (by simp)
  | cons row0 rest =>
    rw [hn] at h
    simp only [Except.ok.injEq] at h
    rw [← h]

theorem expand_err (g : Grid) (row col : Int) {e : Err}
    (h : expandMatrixIfNeeded g row col = .error e) : e = .typeError := by
  unfold expandMatrixIfNeeded at h
  cases hn : rowExpand g row with
  | nil => rw [hn] at h; simpa using h.symm
  | cons row0 rest => rw [hn] at h; exact absurd h (by simp)

/-- Expansion never truncates, never reorders existing rows, and never
changes a previously written cell: the claim-facing bundle. -/
theorem expand_preserves (g : Grid) (row col : Int) {g2 : Grid}
    (h : expandMatrixIfNeeded g row col = .ok g2) :
    g.length ≤ g2.length ∧
    (∀ i, i < g.length → (g.getD i []).length ≤ (g2.getD i []).length) ∧
    (∀ i j, i < g.length → j < (g.getD i []).length → cellAt g2 i j = cellAt g i j) := by
  rcases expand_ok_eq g row col h with rfl
  have hlen1 := rowExpand_length g row
  have hlen2 := colExpand_length (rowExpand g row) col
  refine ⟨by omega, ?_, ?_⟩
  · intro i hi
    have hi1 : i < (rowExpand g row).length := by omega
    calc (g.getD i []).length = ((rowExpand g row).getD i []).length := by
          rw [rowExpand_getD g row hi]
      _ ≤ _ := colExpand_rowLen_mono _ col hi1
  · intro i j hi hj
    have hi1 : i < (rowExpand g row).length := by omega
    have hrow := rowExpand_getD g row hi
    rw [colExpand_cell _ col hi1 (by rw [hrow]; exact hj)]
    unfold cellAt
    rw [hrow]

/-! ### Node-list lemmas -/

theorem findNodeIn_append_none {ns : List Node} {a : Addr} (h : findNodeIn ns a = none)
    (n : Node) (ha : n.addr = a) : findNodeIn (ns ++ [n]) a = some n := by
  induction ns with
  | nil => simp [findNodeIn, ha]
  | cons n0 rest ih =>
    rw [List.cons_append]
    unfold findNodeIn at h ⊢
    by_cases h0 : n0.addr = a
    · rw [if_pos h0] at h; exact absurd h (by simp)
    · rw [if_neg h0] at h ⊢
      exact ih h

theorem updateFirst_of_none {ns : List Node} {a : Addr} (h : findNodeIn ns a = none)
    (g : Grid) : updateFirst ns a g = ns := by
  induction ns with
  | nil => rfl
  | cons n0 rest ih =>
    unfold findNodeIn at h
    unfold updateFirst
    by_cases h0 : n0.addr = a
    · rw [if_pos h0] at h; exact absurd h (by simp)
    · rw [if_neg h0] at h ⊢
      rw [ih h]

theorem findNodeIn_updateFirst {ns : List Node} {a : Addr} {nd : Node}
    (h : findNodeIn ns a = some nd) (g : Grid) :
    findNodeIn (updateFirst ns a g) a = some { nd with value := g } := by
  induction ns with
  | nil => simp [findNodeIn] at h
  | cons n0 rest ih =>
    unfold findNodeIn at h
    unfold updateFirst
    by_cases h0 : n0.addr = a
    · rw [if_pos h0] at h
      rw [if_pos h0]
      unfold findNodeIn
      rw [if_pos h0]
      simp only [Option.some.injEq] at h
      rw [h]
    · rw [if_neg h0] at h
      rw [if_neg h0]
      unfold findNodeIn
      rw [if_neg h0]
      exact ih h

theorem updateFirst_append_of_none {ns : List Node} {a : Addr}
    (h : findNodeIn ns a = none) (n : Node) (ha : n.addr = a) (g : Grid) :
    updateFirst (ns ++ [n]) a g = ns ++ [{ n with value := g }] := by
  induction ns with
  | nil => simp [updateFirst, ha]
  | cons n0 rest ih =>
    rw [List.cons_append]
    unfold findNodeIn at h
    unfold updateFirst
    by_cases h0 : n0.addr = a
    · rw [if_pos h0] at h; exact absurd h (by simp)
    · rw [if_neg h0] at h ⊢
      rw [ih h, List.cons_append]

theorem updateFirst_self {ns : List Node} {a : Addr} {nd : Node}
    (h : findNodeIn ns a = some nd) : updateFirst ns a nd.value = ns := by
  induction ns with
  | nil => simp [findNodeIn] at h
  | cons n0 rest ih =>
    unfold findNodeIn at h
    unfold updateFirst
    by_cases h0 : n0.addr = a
    · rw [if_pos h0] at h
      rw [if_pos h0]
      simp only [Option.some.injEq] at h
      rw [← h]
    · rw [if_neg h0] at h
      rw [if_neg h0, ih h]


/-! ### Case reductions of `set` -/

theorem set_eq_of_found (m : Memory) (a : Addr) (r c v : Int) (node : Node)
    (hf : m.findNode a = some node) {g2 : Grid}
    (hex : expandMatrixIfNeeded node.value r c = .ok g2) (hr0 : ¬ r < 0) (hc0 : ¬ c < 0) :
    m.set a r c v =
      (m.setNodeValue a (modifyAt g2 r.toNat (fun row => writeCell row c.toNat v)), none) := by
  unfold Memory.set
  rw [hf]
  simp only [hex, hr0, hc0, if_false, ite_false]

theorem set_eq_of_fresh (m : Memory) (a : Addr) (r c v : Int)
    (hf : m.findNode a = none) {g2 : Grid}
    (hex : expandMatrixIfNeeded (zeroGrid (r + 1) (c + 1)) r c = .ok g2)
    (hcr : ¬ (1 ≤ r + 1 ∧ c + 1 < 0)) (hr0 : ¬ r < 0) (hc0 : ¬ c < 0) :
    m.set a r c v =
      (Memory.setNodeValue
        ⟨m.nodes ++ [⟨a, zeroGrid (r + 1) (c + 1)⟩],
         addAddress m.usedAddresses (generateAddress a)⟩ a
        (modifyAt g2 r.toNat (fun row => writeCell row c.toNat v)), none) := by
  unfold Memory.set Memory.createNodeIfNeeded
  rw [hf]
  simp only [hcr, if_false, ite_false, hex, hr0, hc0]

theorem set_eq_of_found_err (m : Memory) (a : Addr) (r c v : Int) (node : Node)
    (hf : m.findNode a = some node) {e : Err}
    (hex : expandMatrixIfNeeded node.value r c = .error e) :
    m.set a r c v = (m, some e) := by
  unfold Memory.set
  rw [hf]
  simp only [hex]

theorem set_eq_of_found_negRow (m : Memory) (a : Addr) (r c v : Int) (node : Node)
    (hf : m.findNode a = some node) {g2 : Grid}
    (hex : expandMatrixIfNeeded node.value r c = .ok g2) (hr0 : r < 0) :
    m.set a r c v = (m.setNodeValue a g2, some .typeError) := by
  unfold Memory.set
  rw [hf]
  simp only [hex, hr0, if_true, ite_true]

theorem set_eq_of_found_negCol (m : Memory) (a : Addr) (r c v : Int) (node : Node)
    (hf : m.findNode a = some node) {g2 : Grid}
    (hex : expandMatrixIfNeeded node.value r c = .ok g2) (hr0 : ¬ r < 0) (hc0 : c < 0) :
    m.set a r c v = (m.setNodeValue a g2, none) := by
  unfold Memory.set
  rw [hf]
  simp only [hex, hr0, hc0, if_false, ite_false, if_true, ite_true]

theorem set_eq_of_fresh_rangeErr (m : Memory) (a : Addr) (r c v : Int)
    (hf : m.findNode a = none) (hcr : 1 ≤ r + 1 ∧ c + 1 < 0) :
    m.set a r c v = (m, some .rangeError) := by
  unfold Memory.set Memory.createNodeIfNeeded
  rw [hf]
  simp only [hcr.1, hcr.2, and_self, if_true, ite_true]

theorem set_eq_of_fresh_expandErr (m : Memory) (a : Addr) (r c v : Int)
    (hf : m.findNode a = none) {e : Err}
    (hex : expandMatrixIfNeeded (zeroGrid (r + 1) (c + 1)) r c = .error e)
    (hcr : ¬ (1 ≤ r + 1 ∧ c + 1 < 0)) :
    m.set a r c v =
      (⟨m.nodes ++ [⟨a, zeroGrid (r + 1) (c + 1)⟩],
        addAddress m.usedAddresses (generateAddress a)⟩, some e) := by
  unfold Memory.set Memory.createNodeIfNeeded
  rw [hf]
  simp only [hcr, if_false, ite_false, hex]

theorem set_eq_of_fresh_negRow (m : Memory) (a : Addr) (r c v : Int)
    (hf : m.findNode a = none) {g2 : Grid}
    (hex : expandMatrixIfNeeded (zeroGrid (r + 1) (c + 1)) r c = .ok g2)
    (hcr : ¬ (1 ≤ r + 1 ∧ c + 1 < 0)) (hr0 : r < 0) :
    m.set a r c v =
      (Memory.setNodeValue
        ⟨m.nodes ++ [⟨a, zeroGrid (r + 1) (c + 1)⟩],
         addAddress m.usedAddresses (generateAddress a)⟩ a g2, some .typeError) := by
  unfold Memory.set Memory.createNodeIfNeeded
  rw [hf]
  simp only [hcr, if_false, ite_false, hex, hr0, if_true, ite_true]

theorem set_eq_of_fresh_negCol (m : Memory) (a : Addr) (r c v : Int)
    (hf : m.findNode a = none) {g2 : Grid}
    (hex : expandMatrixIfNeeded (zeroGrid (r + 1) (c + 1)) r c = .ok g2)
    (hcr : ¬ (1 ≤ r + 1 ∧ c + 1 < 0)) (hr0 : ¬ r < 0) (hc0 : c < 0) :
    m.set a r c v =
      (Memory.setNodeValue
        ⟨m.nodes ++ [⟨a, zeroGrid (r + 1) (c + 1)⟩],
         addAddress m.usedAddresses (generateAddress a)⟩ a g2, none) := by
  unfold Memory.set Memory.createNodeIfNeeded
  rw [hf]
  simp only [hcr, if_false, ite_false, hex, hr0, hc0, if_true, ite_true]

/-! ### Behaviour of `set` for non-negative indices -/

theorem set_run (m : Memory) (a : Addr) {r c : Int} (v : Int) (hr : 0 ≤ r) (hc : 0 ≤ c) :
    (m.set a r c v).2 = none ∧
    ∃ nd : Node, ((m.set a r c v).1).findNode a = some nd ∧ nd.addr = a ∧
      nd.value = setGrid (baseGrid m a r c) r c v ∧
      ((m.set a r c v).1).nodes =
        updateFirst ((m.set a r c v).1).nodes a nd.value := by
  cases hf : m.findNode a with
  | some node =>
    rw [set_eq_of_found m a r c v node hf (expand_eq_ok node.value c hr)
      (by omega) (by omega)]
    have hfind := findNodeIn_updateFirst hf (setGrid node.value r c v)
    have haddr : node.addr = a := by
      revert hf
      unfold Memory.findNode
      induction m.nodes with
      | nil => intro h; exact absurd h (by simp [findNodeIn])
      | cons n0 rest ih =>
        unfold findNodeIn
        by_cases h0 : n0.addr = a
        · rw [if_pos h0]; intro h; cases h; exact h0
        · rw [if_neg h0]; exact ih
    refine ⟨rfl, { node with value := setGrid node.value r c v }, ?_, haddr, ?_, ?_⟩
    · simpa [baseGrid, hf] using hfind
    · simp [baseGrid, hf]
    · show updateFirst _ a _ = updateFirst (updateFirst _ a _) a _
      have h2 := findNodeIn_updateFirst hf (setGrid node.value r c v)
      have := updateFirst_self h2
      exact this.symm
  | none =>
    rw [set_eq_of_fresh m a r c v hf
      (expand_eq_ok (zeroGrid (r + 1) (c + 1)) c hr) (by omega) (by omega) (by omega)]
    have hfind0 : findNodeIn (m.nodes ++ [⟨a, zeroGrid (r + 1) (c + 1)⟩]) a =
        some ⟨a, zeroGrid (r + 1) (c + 1)⟩ := findNodeIn_append_none hf _ rfl
    have hup : updateFirst (m.nodes ++ [⟨a, zeroGrid (r + 1) (c + 1)⟩]) a
        (setGrid (zeroGrid (r + 1) (c + 1)) r c v) =
        m.nodes ++ [⟨a, setGrid (zeroGrid (r + 1) (c + 1)) r c v⟩] :=
      updateFirst_append_of_none hf _ rfl _
    refine ⟨rfl, ⟨a, setGrid (zeroGrid (r + 1) (c + 1)) r c v⟩, ?_, rfl, ?_, ?_⟩
    · show findNodeIn (updateFirst (m.nodes ++ [⟨a, zeroGrid (r + 1) (c + 1)⟩]) a
        (setGrid (zeroGrid (r + 1) (c + 1)) r c v)) a = _
      rw [hup]
      exact findNodeIn_append_none hf _ rfl
    · simp [baseGrid, hf]
    · show updateFirst (m.nodes ++ [⟨a, zeroGrid (r + 1) (c + 1)⟩]) a
          (setGrid (zeroGrid (r + 1) (c + 1)) r c v) =
        updateFirst (updateFirst (m.nodes ++ [⟨a, zeroGrid (r + 1) (c + 1)⟩]) a
          (setGrid (zeroGrid (r + 1) (c + 1)) r c v)) a
          (setGrid (zeroGrid (r + 1) (c + 1)) r c v)
      rw [hup, updateFirst_append_of_none hf _ rfl]

theorem setGrid_spec (g0 : Grid) {r c : Int} (v : Int) (hr : 0 ≤ r) (hc : 0 ≤ c) :
    r.toNat < (setGrid g0 r c v).length ∧
    c.toNat < ((setGrid g0 r c v).getD r.toNat []).length ∧
    c.toNat < ((setGrid g0 r c v).getD 0 []).length ∧
    cellAt (setGrid g0 r c v) r.toNat c.toNat = some v ∧
    g0.length ≤ (setGrid g0 r c v).length ∧
    (∀ i, i < g0.length → (g0.getD i []).length ≤ ((setGrid g0 r c v).getD i []).length) ∧
    (∀ i j, i < g0.length → j < (g0.getD i []).length → (i ≠ r.toNat ∨ j ≠ c.toNat) →
      cellAt (setGrid g0 r c v) i j = cellAt g0 i j) := by
  have hlen1 := rowExpand_length g0 r
  have hlen2 := colExpand_length (rowExpand g0 r) c
  have hlen3 := modifyAt_length (colExpand (rowExpand g0 r) c) r.toNat
    (fun row => writeCell row c.toNat v)
  have hrlt2 : r.toNat < (colExpand (rowExpand g0 r) c).length := by omega
  have hrow3 := modifyAt_getD_self (colExpand (rowExpand g0 r) c)
    (fun row => writeCell row c.toNat v) hrlt2
  have hrowlen := writeCell_length ((colExpand (rowExpand g0 r) c).getD r.toNat [])
    c.toNat v
  unfold setGrid
  refine ⟨by omega, ?_, ?_, ?_, by omega, ?_, ?_⟩
  · rw [hrow3]
    simp only at hrowlen ⊢
    omega
  · by_cases h0 : r.toNat = 0
    · rw [← h0, hrow3]
      simp only at hrowlen ⊢
      omega
    · rw [modifyAt_getD_ne _ _ h0]
      have h0lt1 : 0 < (rowExpand g0 r).length := by omega
      rw [colExpand_getD _ _ h0lt1]
      rw [headD_eq_getD]
      split
      · simp only [List.length_append, List.length_replicate]
        omega
      · omega
  · unfold cellAt
    rw [hrow3]
    exact writeCell_getD_self _ _ _
  · intro i hi
    have hi1 : i < (rowExpand g0 r).length := by omega
    have hbase : (g0.getD i []).length = ((rowExpand g0 r).getD i []).length := by
      rw [rowExpand_getD g0 r hi]
    by_cases hir : i = r.toNat
    · subst hir
      rw [hrow3]
      have hmono := colExpand_rowLen_mono (rowExpand g0 r) c hi1
      simp only at hrowlen ⊢
      omega
    · rw [modifyAt_getD_ne _ _ (fun e => hir e.symm)]
      have hmono := colExpand_rowLen_mono (rowExpand g0 r) c hi1
      omega
  · intro i j hi hj hne
    have hi1 : i < (rowExpand g0 r).length := by omega
    have hrowEq := rowExpand_getD g0 r hi
    have hj1 : j < ((rowExpand g0 r).getD i []).length := by rw [hrowEq]; exact hj
    by_cases hir : i = r.toNat
    · subst hir
      have hjc : j ≠ c.toNat := by
        cases hne with
        | inl h => exact absurd rfl h
        | inr h => exact h
      unfold cellAt
      rw [hrow3]
      have hj2 : j < ((colExpand (rowExpand g0 r) c).getD r.toNat []).length :=
        Nat.lt_of_lt_of_le hj1 (colExpand_rowLen_mono _ c hi1)
      rw [writeCell_getD_ne _ _ _ hj2 hjc]
      have := colExpand_cell (rowExpand g0 r) c hi1 hj1
      unfold cellAt at this
      rw [this, hrowEq]
    · unfold cellAt
      rw [modifyAt_getD_ne _ _ (fun e => hir e.symm)]
      have := colExpand_cell (rowExpand g0 r) c hi1 hj1
      unfold cellAt at this
      rw [this, hrowEq]

theorem get_of_found (m : Memory) (a : Addr) (r c : Int) (nd : Node)
    (hf : m.findNode a = some nd) (h1 : 0 ≤ r) (h2 : r.toNat < nd.value.length)
    (h3 : 0 ≤ c) (h4 : c.toNat < (nd.value.getD r.toNat []).length) :
    m.get a r c = .ok ((nd.value.getD r.toNat []).getD c.toNat none) := by
  have hcond : 0 ≤ r ∧ r < (nd.value.length : Int) ∧ 0 ≤ c ∧
      c < ((nd.value.getD r.toNat []).length : Int) := ⟨h1, by omega, h3, by omega⟩
  simp only [Memory.get, hf, if_pos hcond]

/-- C1: growth preserves previously written values.  After
`set(addr, r0, c0, v0)` then `set(addr, r1, c1, v1)` with `r1 > r0` or
`c1 > c0` (all indices non-negative), `get(addr, r0, c0)` still returns
`v0`; moreover grid expansion never truncates the grid, never reorders
existing rows, and never changes any previously written cell. -/
theorem c1_growth_preserves_values (m : Memory) (a : Addr) (r0 c0 r1 c1 v0 v1 : Int)
    (h0r : 0 ≤ r0) (h0c : 0 ≤ c0) (h1r : 0 ≤ r1) (h1c : 0 ≤ c1)
    (hgrow : r0 < r1 ∨ c0 < c1) :
    (((m.set a r0 c0 v0).1.set a r1 c1 v1).1.get a r0 c0 = .ok (some v0)) ∧
    (∀ g g2 : Grid, expandMatrixIfNeeded g r1 c1 = .ok g2 →
      g.length ≤ g2.length ∧
      (∀ i, i < g.length → (g.getD i []).length ≤ (g2.getD i []).length) ∧
      (∀ i j, i < g.length → j < (g.getD i []).length → cellAt g2 i j = cellAt g i j)) := by
  constructor
  · obtain ⟨-, nd1, hfind1, -, hval1, -⟩ := set_run m a v0 h0r h0c
    obtain ⟨hA, hB, -, hC, -, -, -⟩ := setGrid_spec (baseGrid m a r0 c0) v0 h0r h0c
    rw [← hval1] at hA hB hC
    obtain ⟨-, nd2, hfind2, -, hval2, -⟩ := set_run ((m.set a r0 c0 v0).1) a v1 h1r h1c
    have hbase2 : baseGrid ((m.set a r0 c0 v0).1) a r1 c1 = nd1.value := by
      unfold baseGrid
      rw [hfind1]
    rw [hbase2] at hval2
    obtain ⟨-, -, -, -, hlen2, hrow2, hcell2⟩ := setGrid_spec nd1.value v1 h1r h1c
    rw [← hval2] at hlen2 hrow2 hcell2
    have hne : r0.toNat ≠ r1.toNat ∨ c0.toNat ≠ c1.toNat := by
      cases hgrow with
      | inl h => left; omega
      | inr h => right; omega
    have hcellpres := hcell2 r0.toNat c0.toNat hA hB hne
    rw [get_of_found _ _ _ _ _ hfind2 h0r (Nat.lt_of_lt_of_le hA hlen2) h0c
      (Nat.lt_of_lt_of_le hB (hrow2 _ hA))]
    unfold cellAt at hcellpres hC
    rw [hcellpres, hC]
  · intro g g2 hex
    exact expand_preserves g r1 c1 hex

/-- Witness for C1 at a concrete input. -/
theorem c1_witness :
    ((emptyMemory.set ⟨0, 0, 0⟩ 0 0 7).1.set ⟨0, 0, 0⟩ 2 1 9).1.get ⟨0, 0, 0⟩ 0 0 =
      .ok (some 7) :=
  (c1_growth_preserves_values emptyMemory ⟨0, 0, 0⟩ 0 0 2 1 7 9 (by decide) (by decide)
    (by decide) (by decide) (Or.inl (by decide))).1

theorem findNodeIn_addr {ns : List Node} {a : Addr} {nd : Node}
    (h : findNodeIn ns a = some nd) : nd.addr = a := by
  induction ns with
  | nil => exact absurd h (by simp [findNodeIn])
  | cons n0 rest ih =>
    unfold findNodeIn at h
    by_cases h0 : n0.addr = a
    · rw [if_pos h0] at h
      cases h
      exact h0
    · rw [if_neg h0] at h
      exact ih h

theorem setMatrix_run (m : Memory) (a : Addr) (matrix : Grid) :
    (m.setMatrix a matrix).2 = none ∧
    ∃ nd : Node, ((m.setMatrix a matrix).1).findNode a = some nd ∧ nd.value = matrix := by
  have hcols : ¬ (1 ≤ (matrix.length : Int) ∧
      (if 0 < matrix.length then ((matrix.headD []).length : Int) else 0) < 0) := by
    rintro ⟨-, h2⟩
    revert h2
    split <;> omega
  unfold Memory.setMatrix Memory.createNodeIfNeeded
  cases hf : m.findNode a with
  | some node =>
    refine ⟨rfl, { node with value := matrix }, ?_, rfl⟩
    exact findNodeIn_updateFirst hf _
  | none =>
    simp only [hf, hcols, if_false, ite_false]
    constructor
    · trivial
    refine ⟨⟨a, matrix⟩, ?_, rfl⟩
    show findNodeIn (updateFirst (m.nodes ++
      [⟨a, zeroGrid (matrix.length : Int)
        (if 0 < matrix.length then ((matrix.headD []).length : Int) else 0)⟩]) a matrix) a = _
    rw [updateFirst_append_of_none hf _ rfl]
    exact findNodeIn_append_none hf _ rfl

/-- C3: round trip.  For every store, address and rectangular matrix `M`,
`setMatrix(addr, M)` followed by `getAllData(addr)` returns exactly `M`,
whether or not a node already existed at the address. -/
theorem c3_setMatrix_roundtrip (m : Memory) (a : Addr) (matrix : Grid)
    (_hrect : Rectangular matrix) :
    ((m.setMatrix a matrix).1).getAllData a = .ok matrix := by
  obtain ⟨-, nd, hfind, hval⟩ := setMatrix_run m a matrix
  simp only [Memory.getAllData, hfind, hval]

/-- Witness for C3 at a concrete input. -/
theorem c3_witness :
    ((emptyMemory.setMatrix ⟨0, 0, 0⟩ [[some 1, some 2, some 3],
      [some 4, some 5, some 6]]).1).getAllData ⟨0, 0, 0⟩ =
      .ok [[some 1, some 2, some 3], [some 4, some 5, some 6]] :=
  c3_setMatrix_roundtrip emptyMemory ⟨0, 0, 0⟩ _ (by decide)

/-- C10: `createOrGet` on an address that already has a node returns the
existing node and leaves the whole store (node collection, order, grids,
used-address index) unchanged, ignoring `initialRows`/`initialCols`. -/
theorem c10_createOrGet_existing (m : Memory) (a : Addr) (rows cols : Int)
    (nd : Node) (h : m.findNode a = some nd) :
    m.createNodeIfNeeded a rows cols = .ok (m, nd) := by
  unfold Memory.createNodeIfNeeded
  rw [h]

/-- Witness for C10 at a concrete input. -/
theorem c10_witness :
    ((emptyMemory.set ⟨0, 0, 0⟩ 0 0 5).1).createNodeIfNeeded ⟨0, 0, 0⟩ 9 9 =
      .ok ((emptyMemory.set ⟨0, 0, 0⟩ 0 0 5).1, ⟨⟨0, 0, 0⟩, [[some 5]]⟩) :=
  c10_createOrGet_existing ((emptyMemory.set ⟨0, 0, 0⟩ 0 0 5).1) ⟨0, 0, 0⟩ 9 9
    ⟨⟨0, 0, 0⟩, [[some 5]]⟩ (by decide)

/-- C7: `getDimensions` on an address with no node returns `(0, 0)` and
never fails; no read operation (`get`, `getAllData`, `getDimensions`) ever
creates a node or changes the store; a fresh store has no node at any
address and an empty used-address index. -/
theorem c7_lazy_creation (m : Memory) (a : Addr) :
    (m.findNode a = none → m.getDimensions a = (0, 0)) ∧
    (∀ r c : Int, (runOp (Op.opGet a r c) m).1 = m) ∧
    ((runOp (Op.opGetAllData a) m).1 = m) ∧
    ((runOp (Op.opGetDimensions a) m).1 = m) ∧
    (emptyMemory.findNode a = none ∧ emptyMemory.usedAddresses = []) := by
  refine ⟨?_, ?_, ?_, rfl, rfl, rfl⟩
  · intro hf
    simp only [Memory.getDimensions, hf]
  · intro r c
    show (match m.get a r c with
      | Except.ok _ => (m, (none : Option Err))
      | Except.error e => (m, some e)).1 = m
    cases m.get a r c <;> rfl
  · show (match m.getAllData a with
      | Except.ok _ => (m, (none : Option Err))
      | Except.error e => (m, some e)).1 = m
    cases m.getAllData a <;> rfl

/-- Witness for C7 at a concrete input. -/
theorem c7_witness : emptyMemory.getDimensions ⟨0, 0, 0⟩ = (0, 0) :=
  (c7_lazy_creation emptyMemory ⟨0, 0, 0⟩).1 rfl

/-! ### Error analysis of the mutating operations -/

theorem set_err (m : Memory) (a : Addr) (r c v : Int) {e : Err}
    (h : (m.set a r c v).2 = some e) : e = .typeError ∨ e = .rangeError := by
  cases hf : m.findNode a with
  | some node =>
    cases hex : expandMatrixIfNeeded node.value r c with
    | error e2 =>
      rw [set_eq_of_found_err m a r c v node hf hex] at h
      simp only [Option.some.injEq] at h
      left
      rw [← h, expand_err _ _ _ hex]
    | ok g2 =>
      by_cases hr0 : r < 0
      · rw [set_eq_of_found_negRow m a r c v node hf hex hr0] at h
        simp only [Option.some.injEq] at h
        left
        exact h.symm
      · by_cases hc0 : c < 0
        · rw [set_eq_of_found_negCol m a r c v node hf hex hr0 hc0] at h
          exact absurd h (by simp)
        · rw [set_eq_of_found m a r c v node hf hex hr0 hc0] at h
          exact absurd h (by simp)
  | none =>
    by_cases hcr : 1 ≤ r + 1 ∧ c + 1 < 0
    · rw [set_eq_of_fresh_rangeErr m a r c v hf hcr] at h
      simp only [Option.some.injEq] at h
      right
      exact h.symm
    · cases hex : expandMatrixIfNeeded (zeroGrid (r + 1) (c + 1)) r c with
      | error e2 =>
        rw [set_eq_of_fresh_expandErr m a r c v hf hex hcr] at h
        simp only [Option.some.injEq] at h
        left
        rw [← h, expand_err _ _ _ hex]
      | ok g2 =>
        by_cases hr0 : r < 0
        · rw [set_eq_of_fresh_negRow m a r c v hf hex hcr hr0] at h
          simp only [Option.some.injEq] at h
          left
          exact h.symm
        · by_cases hc0 : c < 0
          · rw [set_eq_of_fresh_negCol m a r c v hf hex hcr hr0 hc0] at h
            exact absurd h (by simp)
          · rw [set_eq_of_fresh m a r c v hf hex hcr hr0 hc0] at h
            exact absurd h (by simp)

/-- C5: error atomicity.  Whenever an operation raises one of the spec's
error kinds (NotFound, IndexOutOfBounds, InvalidArgument), the store it
leaves behind is exactly the store it started from.  (The only mutating-
then-throwing paths of `set` raise native TypeError/RangeError instead,
which are outside the spec's taxonomy.) -/
theorem c5_error_atomicity (op : Op) (m : Memory) (e : Err)
    (h2 : (runOp op m).2 = some e)
    (htax : e = .invalidAddress ∨ e = .indexOutOfBounds ∨ e = .invalidArgument) :
    (runOp op m).1 = m := by
  cases op with
  | opSet a r c v =>
    exfalso
    have := set_err m a r c v (h2 : (m.set a r c v).2 = some e)
    rcases this with h | h <;> rcases htax with h3 | h3 | h3 <;> rw [h] at h3 <;> cases h3
  | opSetMatrix a mat =>
    exfalso
    have hok := (setMatrix_run m a mat).1
    have h2' : (m.setMatrix a mat).2 = some e := h2
    rw [hok] at h2'
    cases h2'
  | opGet a r c =>
    show (match m.get a r c with
      | Except.ok _ => (m, (none : Option Err))
      | Except.error e1 => (m, some e1)).1 = m
    cases m.get a r c <;> rfl
  | opGetAllData a =>
    show (match m.getAllData a with
      | Except.ok _ => (m, (none : Option Err))
      | Except.error e1 => (m, some e1)).1 = m
    cases m.getAllData a <;> rfl
  | opGetDimensions a => rfl
  | opUpdate =>
    exfalso
    simp [runOp] at h2
  | opCreateOrGet a rows cols =>
    cases hc : m.createNodeIfNeeded a rows cols with
    | error e2 =>
      show (match m.createNodeIfNeeded a rows cols with
        | Except.ok (m1, _) => (m1, (none : Option Err))
        | Except.error e1 => (m, some e1)).1 = m
      rw [hc]
    | ok p =>
      exfalso
      obtain ⟨m1, nd1⟩ := p
      have h2' : (match m.createNodeIfNeeded a rows cols with
        | Except.ok (m1, _) => (m1, (none : Option Err))
        | Except.error e1 => (m, some e1)).2 = some e := h2
      rw [hc] at h2'
      simp at h2'

/-- Witness for C5 at a concrete input. -/
theorem c5_witness : (runOp (Op.opGet ⟨0, 0, 0⟩ 0 0) emptyMemory).1 = emptyMemory :=
  c5_error_atomicity (Op.opGet ⟨0, 0, 0⟩ 0 0) emptyMemory .invalidAddress rfl (Or.inl rfl)

/-! ### The shape produced by `set` on a fresh address -/

theorem setGrid_zeroGrid {r c : Int} (v : Int) (hr : 0 ≤ r) (hc : 0 ≤ c) :
    (setGrid (zeroGrid (r + 1) (c + 1)) r c v).length = r.toNat + 1 ∧
    (∀ i, i < r.toNat + 1 →
      ((setGrid (zeroGrid (r + 1) (c + 1)) r c v).getD i []).length = c.toNat + 1) ∧
    (∀ i j, i < r.toNat + 1 → j < c.toNat + 1 →
      cellAt (setGrid (zeroGrid (r + 1) (c + 1)) r c v) i j =
        if i = r.toNat ∧ j = c.toNat then some v else some 0) := by
  have hz : zeroGrid (r + 1) (c + 1) =
      List.replicate (r.toNat + 1) (List.replicate (c.toNat + 1) (some 0)) := by
    unfold zeroGrid
    rw [show (r + 1).toNat = r.toNat + 1 by omega, show (c + 1).toNat = c.toNat + 1 by omega]
  have hrowE : rowExpand (zeroGrid (r + 1) (c + 1)) r = zeroGrid (r + 1) (c + 1) := by
    apply rowExpand_of_lt
    rw [hz]
    simp only [List.length_replicate]
    omega
  have hcolE : colExpand (zeroGrid (r + 1) (c + 1)) c = zeroGrid (r + 1) (c + 1) := by
    apply colExpand_of_lt
    rw [hz, headD_eq_getD, getD_replicate _ _ (by omega), List.length_replicate]
    omega
  have hsg : setGrid (zeroGrid (r + 1) (c + 1)) r c v =
      modifyAt (List.replicate (r.toNat + 1) (List.replicate (c.toNat + 1) (some 0)))
        r.toNat (fun row => writeCell row c.toNat v) := by
    unfold setGrid
    rw [hrowE, hcolE, hz]
  have hlen : (setGrid (zeroGrid (r + 1) (c + 1)) r c v).length = r.toNat + 1 := by
    rw [hsg, modifyAt_length, List.length_replicate]
  have hrowAt : ∀ i, i < r.toNat + 1 →
      (setGrid (zeroGrid (r + 1) (c + 1)) r c v).getD i [] =
        if i = r.toNat then writeCell (List.replicate (c.toNat + 1) (some 0)) c.toNat v
        else List.replicate (c.toNat + 1) (some 0) := by
    intro i hi
    rw [hsg]
    by_cases hir : i = r.toNat
    · rw [if_pos hir, hir,
        modifyAt_getD_self _ _ (by rw [List.length_replicate]; omega),
        getD_replicate _ _ (by omega)]
    · rw [if_neg hir, modifyAt_getD_ne _ _ (fun e => hir e.symm),
        getD_replicate _ _ hi]
  have hwlen : (writeCell (List.replicate (c.toNat + 1) (some 0)) c.toNat v).length =
      c.toNat + 1 := by
    rw [writeCell_length, List.length_replicate]
    omega
  refine ⟨hlen, ?_, ?_⟩
  · intro i hi
    rw [hrowAt i hi]
    split
    · exact hwlen
    · rw [List.length_replicate]
  · intro i j hi hj
    unfold cellAt
    rw [hrowAt i hi]
    by_cases hir : i = r.toNat
    · rw [if_pos hir]
      by_cases hjc : j = c.toNat
      · rw [hjc, if_pos ⟨hir, rfl⟩]
        exact writeCell_getD_self _ _ _
      · rw [if_neg (fun hand => hjc hand.2),
          writeCell_getD_ne _ _ _ (by rw [List.length_replicate]; omega) hjc,
          getD_replicate _ _ hj]
    · rw [if_neg hir, if_neg (fun hand => hir hand.1), getD_replicate _ _ hj]

theorem set_negRow (m : Memory) (a : Addr) (r c v : Int) (hr0 : r < 0) :
    (m.set a r c v).2 = some .typeError := by
  cases hf : m.findNode a with
  | some node =>
    cases hex : expandMatrixIfNeeded node.value r c with
    | error e =>
      rw [set_eq_of_found_err m a r c v node hf hex]
      rw [expand_err _ _ _ hex]
    | ok g2 =>
      rw [set_eq_of_found_negRow m a r c v node hf hex hr0]
  | none =>
    have hcr : ¬ (1 ≤ r + 1 ∧ c + 1 < 0) := by omega
    have hzg : zeroGrid (r + 1) (c + 1) = [] := by
      unfold zeroGrid
      rw [show (r + 1).toNat = 0 by omega]
      rfl
    have hex : expandMatrixIfNeeded (zeroGrid (r + 1) (c + 1)) r c = .error .typeError := by
      rw [hzg]
      unfold expandMatrixIfNeeded rowExpand
      rw [show ((r + 1 - (([] : Grid).length : Int)).toNat) = 0 by simp; omega]
      rfl
    rw [set_eq_of_fresh_expandErr m a r c v hf hex hcr]

theorem set_negColOne (m : Memory) (a : Addr) (r v : Int) (hr : 0 ≤ r) :
    (m.set a r (-1) v).2 = none := by
  cases hf : m.findNode a with
  | some node =>
    rw [set_eq_of_found_negCol m a r (-1) v node hf
      (expand_eq_ok node.value (-1) hr) (by omega) (by omega)]
  | none =>
    rw [set_eq_of_fresh_negCol m a r (-1) v hf
      (expand_eq_ok (zeroGrid (r + 1) ((-1) + 1)) (-1) hr) (by omega) (by omega) (by omega)]

/-- C4 counterexample: the claim says negative indices make `set` fail with
InvalidArgument, but `set(addr, 0, -1, 5)` on a fresh store raises no error
at all. -/
theorem c4_counterexample :
    (emptyMemory.set ⟨0, 0, 0⟩ 0 (-1) 5).2 = none ∧
    (emptyMemory.set ⟨0, 0, 0⟩ 0 (-1) 5).2 ≠ some Err.invalidArgument := by
  constructor
  · rfl
  · intro h
    cases h

/-- C4 (amended): `set(addr, row, col, value)` never fails for non-negative
`row` and `col`, creating a zero-initialized node of exactly
`(row+1) x (col+1)` cells (with the target cell set to `value`) when the
address is unused, and growing an existing grid when needed.  Negative
indices are, however, not rejected with InvalidArgument: a negative `row`
makes the call fail with a native TypeError, while `col = -1` with
non-negative `row` succeeds without error. -/
theorem c4_set_total_nonneg :
    (∀ (m : Memory) (a : Addr) (r c v : Int), 0 ≤ r → 0 ≤ c →
      (m.set a r c v).2 = none) ∧
    (∀ (m : Memory) (a : Addr) (r c v : Int), 0 ≤ r → 0 ≤ c → m.findNode a = none →
      ∃ nd : Node, ((m.set a r c v).1).findNode a = some nd ∧
        nd.value.length = r.toNat + 1 ∧
        (∀ i, i < r.toNat + 1 → (nd.value.getD i []).length = c.toNat + 1) ∧
        (∀ i j, i < r.toNat + 1 → j < c.toNat + 1 →
          cellAt nd.value i j = if i = r.toNat ∧ j = c.toNat then some v else some 0)) ∧
    (∀ (m : Memory) (a : Addr) (r c v : Int), r < 0 →
      (m.set a r c v).2 = some Err.typeError) ∧
    (∀ (m : Memory) (a : Addr) (r v : Int), 0 ≤ r →
      (m.set a r (-1) v).2 = none) := by
  refine ⟨?_, ?_, set_negRow, set_negColOne⟩
  · intro m a r c v hr hc
    exact (set_run m a v hr hc).1
  · intro m a r c v hr hc hf
    obtain ⟨-, nd, hfind, -, hval, -⟩ := set_run m a v hr hc
    have hbase : baseGrid m a r c = zeroGrid (r + 1) (c + 1) := by
      unfold baseGrid
      rw [hf]
    rw [hbase] at hval
    obtain ⟨hA, hB, hC⟩ := setGrid_zeroGrid v hr hc
    rw [← hval] at hA hB hC
    exact ⟨nd, hfind, hA, fun i hi => hB i hi, hC⟩

/-- Witness for the amended C4 at concrete inputs. -/
theorem c4_witness :
    (emptyMemory.set ⟨0, 0, 0⟩ 1 2 5).2 = none ∧
    (emptyMemory.set ⟨0, 0, 0⟩ (-1) 0 5).2 = some Err.typeError ∧
    (emptyMemory.set ⟨0, 0, 0⟩ 3 (-1) 5).2 = none :=
  ⟨c4_set_total_nonneg.1 emptyMemory ⟨0, 0, 0⟩ 1 2 5 (by decide) (by decide),
   c4_set_total_nonneg.2.2.1 emptyMemory ⟨0, 0, 0⟩ (-1) 0 5 (by decide),
   c4_set_total_nonneg.2.2.2 emptyMemory ⟨0, 0, 0⟩ 3 5 (by decide)⟩

/-! ### Idempotence of repeated identical writes -/

theorem expand_noop (g : Grid) {r1 c1 : Int} (ha : 0 ≤ r1) (hb : r1 < (g.length : Int))
    (hd : c1 < ((g.headD []).length : Int)) :
    expandMatrixIfNeeded g r1 c1 = .ok g := by
  rw [expand_eq_ok g c1 ha, rowExpand_of_lt g hb, colExpand_of_lt g hd]

/-- C8: idempotent growth.  Calling `set(addr, r, c, v)` twice with the same
arguments leaves the store after the second call identical to the store
after the first (grid shape and every cell value included), and expansion
for a target already within bounds is a no-op that returns the grid
unchanged. -/
theorem c8_idempotent_growth (m : Memory) (a : Addr) (r c v : Int)
    (hr : 0 ≤ r) (hc : 0 ≤ c) :
    ((m.set a r c v).1.set a r c v) = ((m.set a r c v).1, none) ∧
    (∀ (g : Grid) (r1 c1 : Int), 0 ≤ r1 → r1 < (g.length : Int) →
      c1 < ((g.headD []).length : Int) → expandMatrixIfNeeded g r1 c1 = .ok g) := by
  refine ⟨?_, fun g r1 c1 ha hb hd => expand_noop g ha hb hd⟩
  obtain ⟨-, nd, hfind, -, hval, hfix⟩ := set_run m a v hr hc
  obtain ⟨h1, h2, h3, h4, -, -, -⟩ := setGrid_spec (baseGrid m a r c) v hr hc
  rw [← hval] at h1 h2 h3 h4
  have hexp : expandMatrixIfNeeded nd.value r c = .ok nd.value := by
    apply expand_noop nd.value hr (by omega)
    rw [headD_eq_getD]
    omega
  rw [set_eq_of_found _ a r c v nd hfind hexp (by omega) (by omega)]
  have hmod : modifyAt nd.value r.toNat (fun row => writeCell row c.toNat v) = nd.value := by
    apply modifyAt_eq_self _ _ h1
    show writeCell (nd.value.getD r.toNat []) c.toNat v = nd.value.getD r.toNat []
    unfold writeCell
    rw [if_pos h2]
    exact set_eq_self _ none _ h2 h4
  rw [hmod]
  simp only [Memory.setNodeValue, Prod.mk.injEq, and_true]
  rw [← hfix]

/-- Witness for C8 at a concrete input. -/
theorem c8_witness :
    ((emptyMemory.set ⟨0, 0, 0⟩ 1 1 4).1.set ⟨0, 0, 0⟩ 1 1 4) =
      ((emptyMemory.set ⟨0, 0, 0⟩ 1 1 4).1, none) :=
  (c8_idempotent_growth emptyMemory ⟨0, 0, 0⟩ 1 1 4 (by decide) (by decide)).1

/-! ### Rectangularity -/

theorem getD_mem {α : Type} (l : List α) (d : α) {i : Nat} (h : i < l.length) :
    l.getD i d ∈ l := by
  rw [List.getD_eq_getElem _ _ h]
  exact List.getElem_mem h

theorem rowExpand_def (g : Grid) (row : Int) :
    rowExpand g row = g ++ List.replicate (row + 1 - (g.length : Int)).toNat
      (List.replicate (if 0 < g.length then ((g.headD []).length : Int) else 0).toNat
        (some 0)) := rfl

theorem rowExpand_width (g : Grid) (row : Int) {i : Nat}
    (hw : ∀ i1, i1 < g.length → (g.getD i1 []).length = (g.headD []).length)
    (hi : i < (rowExpand g row).length) :
    ((rowExpand g row).getD i []).length = (g.headD []).length := by
  rw [rowExpand_def] at hi ⊢
  rcases Nat.lt_or_ge i g.length with hlt | hge
  · rw [List.getD_append _ _ _ _ hlt]
    exact hw i hlt
  · rw [List.getD_append_right _ _ _ _ hge]
    simp only [List.length_append, List.length_replicate] at hi
    rw [getD_replicate _ _ (by omega), List.length_replicate]
    split
    · omega
    · rename_i hg0
      have hnil : g = [] := List.length_eq_zero.mp (by omega)
      rw [hnil]
      rfl

/-- `set` with non-negative indices preserves strict rectangularity. -/
theorem setGrid_rect (g0 : Grid) {r c : Int} (v : Int) (hr : 0 ≤ r) (hc : 0 ≤ c)
    (hrect : Rectangular g0) : Rectangular (setGrid g0 r c v) := by
  have hg0row : ∀ i, i < g0.length → (g0.getD i []).length = (g0.headD []).length :=
    fun i hi => hrect _ (getD_mem g0 [] hi)
  have hlen1 := rowExpand_length g0 r
  have hne1 : 0 < (rowExpand g0 r).length := by
    have := rowExpand_ne_nil g0 hr
    cases hg : rowExpand g0 r with
    | nil => exact absurd hg this
    | cons x xs => simp [hg]
  have hg1 : ∀ i, i < (rowExpand g0 r).length →
      ((rowExpand g0 r).getD i []).length = (g0.headD []).length :=
    fun i hi => rowExpand_width g0 r hg0row hi
  have hhead1 : ((rowExpand g0 r).headD []).length = (g0.headD []).length := by
    rw [headD_eq_getD]
    exact hg1 0 hne1
  have hlen2 := colExpand_length (rowExpand g0 r) c
  have hlen3 := modifyAt_length (colExpand (rowExpand g0 r) c) r.toNat
    (fun row => writeCell row c.toNat v)
  -- the uniform width of every row after expansion and the write
  by_cases hcol : ((((rowExpand g0 r).headD []).length : Int) ≤ c)
  · -- column expansion pads every row to width c.toNat + 1
    have hg2 : ∀ i, i < (colExpand (rowExpand g0 r) c).length →
        (((colExpand (rowExpand g0 r) c).getD i []).length) = c.toNat + 1 := by
      intro i hi
      rw [hlen2] at hi
      rw [colExpand_getD _ _ hi, if_pos hcol]
      simp only [List.length_append, List.length_replicate]
      have := hg1 i hi
      rw [hhead1] at hcol
      omega
    have hg3 : ∀ i, i < (setGrid g0 r c v).length →
        (((setGrid g0 r c v).getD i []).length) = c.toNat + 1 := by
      intro i hi
      unfold setGrid at hi ⊢
      rw [hlen3, hlen2] at hi
      by_cases hir : i = r.toNat
      · subst hir
        rw [modifyAt_getD_self _ _ (by omega)]
        show (writeCell _ c.toNat v).length = _
        rw [writeCell_length, hg2 r.toNat (by omega)]
        omega
      · rw [modifyAt_getD_ne _ _ (fun e => hir e.symm)]
        exact hg2 i (by omega)
    intro row hmem
    obtain ⟨i, hi, hrow⟩ := List.mem_iff_getElem.mp hmem
    have h0len : 0 < (setGrid g0 r c v).length := by
      unfold setGrid
      omega
    rw [← hrow, ← List.getD_eq_getElem _ [] hi, hg3 i hi,
      headD_eq_getD (setGrid g0 r c v) [], hg3 0 h0len]
  · -- no column expansion; every row keeps the canonical width
    have hcolE : colExpand (rowExpand g0 r) c = rowExpand g0 r :=
      colExpand_of_lt _ (by omega)
    have hg3 : ∀ i, i < (setGrid g0 r c v).length →
        (((setGrid g0 r c v).getD i []).length) = (g0.headD []).length := by
      intro i hi
      unfold setGrid at hi ⊢
      rw [hcolE] at hi ⊢
      rw [modifyAt_length] at hi
      by_cases hir : i = r.toNat
      · subst hir
        rw [modifyAt_getD_self _ _ hi]
        show (writeCell _ c.toNat v).length = _
        rw [writeCell_length, hg1 r.toNat hi]
        rw [hhead1] at hcol
        omega
      · rw [modifyAt_getD_ne _ _ (fun e => hir e.symm)]
        exact hg1 i hi
    intro row hmem
    obtain ⟨i, hi, hrow⟩ := List.mem_iff_getElem.mp hmem
    have h0len : 0 < (setGrid g0 r c v).length := by
      unfold setGrid
      rw [hcolE, modifyAt_length]
      omega
    rw [← hrow, ← List.getD_eq_getElem _ [] hi, hg3 i hi,
      headD_eq_getD (setGrid g0 r c v) [], hg3 0 h0len]

theorem zeroGrid_rect (rows cols : Int) : Rectangular (zeroGrid rows cols) := by
  intro row hmem
  unfold zeroGrid at hmem ⊢
  rw [List.mem_replicate] at hmem
  obtain ⟨hne, rfl⟩ := hmem
  rw [headD_eq_getD, getD_replicate _ _ (by omega)]

theorem c2_aux (a : Addr) (calls : List SetCall) :
    ∀ m : Memory,
      (∀ call ∈ calls, 0 ≤ call.row ∧ 0 ≤ call.col) →
      (m.findNode a = none ∨ ∃ nd, m.findNode a = some nd ∧ Rectangular nd.value) →
      ∀ nd : Node, (applySets m a calls).findNode a = some nd → Rectangular nd.value := by
  induction calls with
  | nil =>
    intro m _ hm nd hnd
    have hnd' : m.findNode a = some nd := hnd
    rcases hm with hnone | ⟨nd0, hsome, hrect⟩
    · rw [hnd'] at hnone
      cases hnone
    · rw [hsome] at hnd'
      cases hnd'
      exact hrect
  | cons call rest ih =>
    intro m hnn hm nd hnd
    have hhead := hnn call (by simp)
    obtain ⟨-, nd1, hfind1, -, hval1, -⟩ :=
      set_run m a call.val hhead.1 hhead.2
    have hrect1 : Rectangular nd1.value := by
      rw [hval1]
      rcases hm with hnone | ⟨nd0, hsome, hrect0⟩
      · have : baseGrid m a call.row call.col = zeroGrid (call.row + 1) (call.col + 1) := by
          unfold baseGrid
          rw [hnone]
        rw [this]
        exact setGrid_rect _ call.val hhead.1 hhead.2 (zeroGrid_rect _ _)
      · have : baseGrid m a call.row call.col = nd0.value := by
          unfold baseGrid
          rw [hsome]
        rw [this]
        exact setGrid_rect _ call.val hhead.1 hhead.2 hrect0
    exact ih ((m.set a call.row call.col call.val).1)
      (fun c2 hc2 => hnn c2 (by simp [hc2]))
      (Or.inr ⟨nd1, hfind1, hrect1⟩) nd hnd

/-- C2: rectangularity invariant.  For every sequence of `set` calls with
non-negative indices against a single previously-unused address, the grid
stored at that address is strictly rectangular after the sequence (and so
after each call, since every prefix of such a sequence is such a
sequence). -/
theorem c2_rectangularity (m : Memory) (a : Addr) (calls : List SetCall)
    (hfresh : m.findNode a = none)
    (hnn : ∀ call ∈ calls, 0 ≤ call.row ∧ 0 ≤ call.col) :
    ∀ nd : Node, (applySets m a calls).findNode a = some nd → Rectangular nd.value :=
  c2_aux a calls m hnn (Or.inl hfresh)

/-- Witness for C2 at a concrete input. -/
theorem c2_witness :
    Rectangular [[some 0, some 0, some 7], [some 0, some 0, some 0],
      [some 0, some 0, some 0], [some 0, some 9, some 0]] :=
  c2_rectangularity emptyMemory ⟨0, 0, 0⟩ [⟨0, 2, 7⟩, ⟨3, 1, 9⟩] rfl (by decide)
    ⟨⟨0, 0, 0⟩, [[some 0, some 0, some 7], [some 0, some 0, some 0],
      [some 0, some 0, some 0], [some 0, some 9, some 0]]⟩ (by decide)

/-! ### The read contract -/

/-- C6: `get` fails with NotFound when no node exists; on an existing node
with a rectangular grid it fails with IndexOutOfBounds exactly when the
target lies outside `[0, rowCount) x [0, colCount)` (as reported by
`getDimensions`), otherwise returns the stored cell; the read never changes
the store. -/
theorem c6_get_contract (m : Memory) (a : Addr) (r c : Int) :
    (m.findNode a = none → m.get a r c = .error .invalidAddress) ∧
    (∀ nd : Node, m.findNode a = some nd → Rectangular nd.value →
      ((0 ≤ r ∧ r < (m.getDimensions a).1 ∧ 0 ≤ c ∧ c < (m.getDimensions a).2) →
        m.get a r c = .ok (cellAt nd.value r.toNat c.toNat)) ∧
      (¬ (0 ≤ r ∧ r < (m.getDimensions a).1 ∧ 0 ≤ c ∧ c < (m.getDimensions a).2) →
        m.get a r c = .error .indexOutOfBounds)) ∧
    (runOp (Op.opGet a r c) m).1 = m := by
  refine ⟨?_, ?_, ?_⟩
  · intro hf
    simp only [Memory.get, hf]
  · intro nd hf hrect
    have hdims : m.getDimensions a = ((nd.value.length : Int),
        if 0 < nd.value.length then ((nd.value.headD []).length : Int) else 0) := by
      simp only [Memory.getDimensions, hf]
    constructor
    · rintro ⟨hc1, hc2, hc3, hc4⟩
      rw [hdims] at hc2 hc4
      simp only at hc2 hc4
      have hlen0 : 0 < nd.value.length := by omega
      rw [if_pos hlen0] at hc4
      have hrowlen : (nd.value.getD r.toNat []).length = (nd.value.headD []).length :=
        hrect _ (getD_mem nd.value [] (by omega))
      rw [get_of_found m a r c nd hf hc1 (by omega) hc3 (by omega)]
      rfl
    · intro hnot
      simp only [Memory.get, hf]
      rw [if_neg]
      rintro ⟨hc1, hc2, hc3, hc4⟩
      apply hnot
      have hlen0 : 0 < nd.value.length := by omega
      have hrowlen : (nd.value.getD r.toNat []).length = (nd.value.headD []).length :=
        hrect _ (getD_mem nd.value [] (by omega))
      rw [hdims]
      refine ⟨hc1, by simpa using hc2, hc3, ?_⟩
      simp only [if_pos hlen0]
      omega
  · show (match m.get a r c with
      | Except.ok _ => (m, (none : Option Err))
      | Except.error e => (m, some e)).1 = m
    cases m.get a r c <;> rfl

/-- Witness for C6 at concrete inputs (the spec's `(3, 2)`-shape example). -/
theorem c6_witness :
    emptyMemory.get ⟨0, 0, 0⟩ 0 0 = .error .invalidAddress ∧
    ((emptyMemory.setMatrix ⟨1, 2, 3⟩ [[some 1, some 2], [some 3, some 4],
        [some 5, some 6]]).1).get ⟨1, 2, 3⟩ 3 0 = .error .indexOutOfBounds ∧
    ((emptyMemory.setMatrix ⟨1, 2, 3⟩ [[some 1, some 2], [some 3, some 4],
        [some 5, some 6]]).1).get ⟨1, 2, 3⟩ 2 1 = .ok (some 6) :=
  ⟨(c6_get_contract emptyMemory ⟨0, 0, 0⟩ 0 0).1 rfl,
   ((c6_get_contract _ ⟨1, 2, 3⟩ 3 0).2.1
      ⟨⟨1, 2, 3⟩, [[some 1, some 2], [some 3, some 4], [some 5, some 6]]⟩
      (by decide) (by decide)).2 (by decide),
   ((c6_get_contract _ ⟨1, 2, 3⟩ 2 1).2.1
      ⟨⟨1, 2, 3⟩, [[some 1, some 2], [some 3, some 4], [some 5, some 6]]⟩
      (by decide) (by decide)).1 (by decide)⟩

/-! ### The sweep -/

/-- C9: after `update` (the source's placeholder sweep), every cell of every
node equals 1, the used-address index is unchanged, and every node keeps its
address, row count and per-row lengths, in the same enumeration order. -/
theorem c9_sweep_constant (m : Memory) :
    (m.update).usedAddresses = m.usedAddresses ∧
    (m.update).nodes.length = m.nodes.length ∧
    (∀ i, i < m.nodes.length →
      ((m.update).nodes.getD i defaultNode).addr = (m.nodes.getD i defaultNode).addr ∧
      ((m.update).nodes.getD i defaultNode).value.length =
        (m.nodes.getD i defaultNode).value.length ∧
      (∀ j, j < (m.nodes.getD i defaultNode).value.length →
        (((m.update).nodes.getD i defaultNode).value.getD j []).length =
          ((m.nodes.getD i defaultNode).value.getD j []).length) ∧
      (∀ j k, j < ((m.update).nodes.getD i defaultNode).value.length →
        k < (((m.update).nodes.getD i defaultNode).value.getD j []).length →
        cellAt ((m.update).nodes.getD i defaultNode).value j k = some 1)) := by
  have hnodes : ∀ i, i < m.nodes.length → (m.update).nodes.getD i defaultNode =
      { m.nodes.getD i defaultNode with
        value := (m.nodes.getD i defaultNode).value.map
          (fun r => r.map (fun _ => some 1)) } := by
    intro i hi
    show (m.nodes.map _).getD i defaultNode = _
    exact getD_map_lt _ m.nodes defaultNode defaultNode hi
  refine ⟨rfl, by simp [Memory.update], ?_⟩
  intro i hi
  rw [hnodes i hi]
  refine ⟨rfl, by simp, ?_, ?_⟩
  · intro j hj
    show ((((m.nodes.getD i defaultNode).value).map _).getD j []).length = _
    rw [getD_map_lt _ _ [] [] hj]
    simp
  · intro j k hj hk
    have hj' : j < (m.nodes.getD i defaultNode).value.length := by
      simpa using hj
    have hk' : k < (((m.nodes.getD i defaultNode).value.map
        (fun r => r.map (fun _ => (some 1 : Cell)))).getD j []).length := hk
    rw [getD_map_lt _ _ [] [] hj'] at hk'
    simp only [List.length_map] at hk'
    unfold cellAt
    show ((((m.nodes.getD i defaultNode).value).map
      (fun r => r.map (fun _ => (some 1 : Cell)))).getD j []).getD k none = some 1
    rw [getD_map_lt _ _ [] [] hj', getD_map_lt _ _ none none hk']

/-- Witness for C9 at a concrete input. -/
theorem c9_witness :
    cellAt ((((emptyMemory.setMatrix ⟨0, 0, 0⟩ [[some 3, some 4]]).1).update).nodes.getD 0
      defaultNode).value 0 1 = some 1 :=
  ((c9_sweep_constant ((emptyMemory.setMatrix ⟨0, 0, 0⟩ [[some 3, some 4]]).1)).2.2 0
    (by decide)).2.2.2 0 1 (by decide) (by decide)
